import Mathlib

/-!
Verification of the Smart Snippets trigger-matching and template-expansion
core (`src/main.ts`) against its natural-language specification.

The embedding models JavaScript strings as `List Char`.  The placeholder
substitution `template.replace(/tok/g, value)` (a global replace of a
literal pattern) is modelled by `replaceAll`, a leftmost, non-overlapping,
single-pass replacement.  `Date` objects are modelled by a record `JSDate`
carrying the calendar fields the code reads: the UTC fields that
`toISOString` prints, the local fields returned by `getFullYear`,
`getMonth` (0-based), `getDate`, the epoch value `getTime`, and the two
locale-dependent strings `toLocaleTimeString` / `toLocaleString` (kept
opaque, since their exact shape depends on the host locale).

Snippets loaded from `data.json` may at runtime miss the `trigger` or
`template` field, so those fields are modelled as `Option`:  JavaScript
string concatenation with `undefined` yields the text "undefined", and
calling `.replace` on `undefined` throws; both behaviours are reproduced.
-/

namespace SmartSnippets

/-- Characters of a string literal. -/
def str (s : String) : List Char := s.data

/-- Decimal digit character for a value below ten (the only values the
code produces, via `% 10` or a `< 10` guard). -/
def digitChar (n : Nat) : Char :=
  if n = 0 then '0' else if n = 1 then '1' else if n = 2 then '2'
  else if n = 3 then '3' else if n = 4 then '4' else if n = 5 then '5'
  else if n = 6 then '6' else if n = 7 then '7' else if n = 8 then '8'
  else '9'

/-- Fuel-driven decimal rendering, most significant digit first; the fuel
is only a structural-termination device and is always at least `n`. -/
def natCharsAux : Nat → Nat → List Char
  | 0, n => [digitChar n]
  | fuel + 1, n =>
    if n < 10 then [digitChar n]
    else natCharsAux fuel (n / 10) ++ [digitChar (n % 10)]

/-- Decimal rendering of a natural number, as JavaScript
`Number.prototype.toString` produces for a non-negative integer. -/
def natChars (n : Nat) : List Char := natCharsAux n n

/-- JavaScript `Number.prototype.toString` on an integer. -/
def intChars (i : Int) : List Char :=
  if i < 0 then '-' :: natChars i.natAbs else natChars i.natAbs

/-- JavaScript `String.prototype.padStart(k, '0')`. -/
def padZero (k : Nat) (s : List Char) : List Char :=
  List.replicate (k - s.length) '0' ++ s

/-- The instant observed by `expandSnippet` (`new Date()`), with every
field the code reads.  `getMonth` is 0-based, as in JavaScript. -/
structure JSDate where
  utcYear : Nat
  utcMonth : Nat
  utcDay : Nat
  getFullYear : Nat
  getMonth : Nat
  getDate : Nat
  getTime : Int
  localeTime : List Char
  localeDateTime : List Char
deriving DecidableEq

/-- The date part of `toISOString()` (everything before `'T'`):
zero-padded UTC calendar fields `YYYY-MM-DD`. -/
def isoDateStr (d : JSDate) : List Char :=
  padZero 4 (natChars d.utcYear) ++ '-' :: padZero 2 (natChars d.utcMonth)
    ++ '-' :: padZero 2 (natChars d.utcDay)

/-- Leftmost, non-overlapping global replacement of the literal pattern
`pat` by `rep`, as `String.prototype.replace` with a global literal regex
performs.  The fuel argument is a structural-termination device; it never
runs out because it starts at the length of the subject string and each
step consumes at least one character. -/
def replaceAllAux (pat rep : List Char) : Nat → List Char → List Char
  | _, [] => []
  | 0, s => s
  | fuel + 1, c :: cs =>
    if pat.isPrefixOf (c :: cs) then
      rep ++ replaceAllAux pat rep fuel (cs.drop (pat.length - 1))
    else
      c :: replaceAllAux pat rep fuel cs

/-- `s.replace(/pat/g, rep)` for a literal pattern `pat`. -/
def replaceAll (pat rep s : List Char) : List Char :=
  replaceAllAux pat rep s.length s

/-- The seven placeholder tokens, written here with `\x7b`/`\x7d` escapes
for the brace characters. -/
def dateTok : List Char := str "\x7b\x7bdate\x7d\x7d"

def timeTok : List Char := str "\x7b\x7btime\x7d\x7d"

def datetimeTok : List Char := str "\x7b\x7bdatetime\x7d\x7d"

def timestampTok : List Char := str "\x7b\x7btimestamp\x7d\x7d"

def yearTok : List Char := str "\x7b\x7byear\x7d\x7d"

def monthTok : List Char := str "\x7b\x7bmonth\x7d\x7d"

def dayTok : List Char := str "\x7b\x7bday\x7d\x7d"

/-- All recognized placeholder tokens. -/
def placeholderTokens : List (List Char) :=
  [dateTok, timeTok, datetimeTok, timestampTok, yearTok, monthTok, dayTok]

/-- `expandSnippet` (src/main.ts:185-199): the chained global replaces, in
source order — date, time, datetime, timestamp, year, month, day. -/
def expandSnippet (template : List Char) (now : JSDate) : List Char :=
  replaceAll dayTok (padZero 2 (natChars now.getDate))
    (replaceAll monthTok (padZero 2 (natChars (now.getMonth + 1)))
      (replaceAll yearTok (natChars now.getFullYear)
        (replaceAll timestampTok (intChars now.getTime)
          (replaceAll datetimeTok now.localeDateTime
            (replaceAll timeTok now.localeTime
              (replaceAll dateTok (isoDateStr now) template))))))

/-- A snippet as it exists at runtime: loaded data may miss fields. -/
structure RawSnippet where
  trigger : Option (List Char)
  template : Option (List Char)
  description : Option (List Char)
deriving DecidableEq

/-- JavaScript string conversion of a possibly-undefined string value, as
performed by string concatenation and interpolation. -/
def jsString (v : Option (List Char)) : List Char := v.getD (str "undefined")

/-- The plugin settings consumed by the keydown handler. -/
structure Settings where
  snippets : List RawSnippet
  triggerKey : List Char
  showSuggestions : Bool
deriving DecidableEq

/-- `plugin.settings.triggerKey + snippet.trigger` (src/main.ts:214). -/
def snippetCandidate (key : List Char) (s : RawSnippet) : List Char :=
  key ++ jsString s.trigger

/-- The `for`/`endsWith` loop of the keydown handler (src/main.ts:213-234):
the first snippet, in list order, whose candidate is a suffix of the text
before the cursor. -/
def findMatch (key : List Char) (snips : List RawSnippet)
    (textBefore : List Char) : Option RawSnippet :=
  snips.find? fun s => (snippetCandidate key s).isSuffixOf textBefore

/-- The editor state the handler reads: the whole document and the
cursor's absolute offset (`selection.head`). -/
structure EditorState where
  doc : List Char
  head : Nat
deriving DecidableEq

/-- `line.text.slice(0, selection.head - line.from)` (src/main.ts:209-210):
the text of the cursor's line from the line start to the cursor, i.e. the
segment of the document before the cursor that follows the last newline. -/
def textBeforeCursor (st : EditorState) : List Char :=
  ((st.doc.take st.head).reverse.takeWhile fun c => c ≠ '\n').reverse

/-- Result of one keydown event: `expanded` is a handled key-press
(`return true`) carrying the document after the single dispatched edit and
the text of the `Notice`; `pass` is `return false` (default handling
proceeds, nothing touched); `thrown` is an exception escaping the handler
(no edit was dispatched, no notice shown). -/
inductive Outcome where
  | expanded (newDoc : List Char) (notice : List Char)
  | pass
  | thrown
deriving DecidableEq

/-- The keydown handler (src/main.ts:205-238).  Only the key `" "` is
inspected; the first matching snippet's candidate span
`[head - candidate.length, head)` is replaced by the expanded template in
one dispatch.  A matched snippet whose `template` field is missing makes
`expandSnippet` throw (`undefined.replace`). -/
def keydown (key : List Char) (settings : Settings) (st : EditorState)
    (now : JSDate) : Outcome :=
  if key = str " " then
    match findMatch settings.triggerKey settings.snippets (textBeforeCursor st) with
    | some s =>
      match s.template with
      | some tpl =>
        let cand := snippetCandidate settings.triggerKey s
        Outcome.expanded
          (st.doc.take (st.head - cand.length)
            ++ expandSnippet tpl now ++ st.doc.drop st.head)
          (str "✨ Expanded: " ++ jsString s.trigger)
      | none => Outcome.thrown
    | none => Outcome.pass
  else Outcome.pass

/-- The trigger-character setting's `onChange` (src/main.ts:264-266):
`this.plugin.settings.triggerKey = value || '/'` — the empty string is the
only falsy string, so it alone is replaced by the default. -/
def triggerKeyOnChange (value : List Char) : List Char :=
  if value = [] then str "/" else value

/-- A snippet's trigger-field `onChange` in the settings tab
(src/main.ts:321-323): the entered value is stored verbatim, with no
validation — an empty trigger is stored as such. -/
def snippetTriggerOnChange (s : RawSnippet) (value : List Char) : RawSnippet :=
  ⟨some value, s.template, s.description⟩

/-! ### Basic lemmas about `replaceAll` -/

theorem replaceAllAux_congr (pat rep : List Char) :
    ∀ (f₁ f₂ : Nat) (s : List Char), s.length ≤ f₁ → s.length ≤ f₂ →
      replaceAllAux pat rep f₁ s = replaceAllAux pat rep f₂ s := by
  intro f₁
  induction f₁ with
  | zero =>
    intro f₂ s h₁ _
    have hs : s = [] := List.length_eq_zero.mp (Nat.le_zero.mp h₁)
    subst hs
    cases f₂ <;> rfl
  | succ f ih =>
    intro f₂ s h₁ h₂
    match s with
    | [] => cases f₂ <;> rfl
    | c :: cs =>
      match f₂ with
      | 0 => simp only [List.length_cons] at h₂; omega
      | m + 1 =>
        simp only [List.length_cons] at h₁ h₂
        simp only [replaceAllAux]
        by_cases hpre : pat.isPrefixOf (c :: cs)
        · simp only [hpre, if_true]
          congr 1
          apply ih
          · simp only [List.length_drop]; omega
          · simp only [List.length_drop]; omega
        · simp only [hpre, Bool.false_eq_true, if_false]
          congr 1
          exact ih m cs (by omega) (by omega)

theorem replaceAll_nil (pat rep : List Char) : replaceAll pat rep [] = [] := rfl

theorem replaceAll_cons_neg (pat rep : List Char) (c : Char) (cs : List Char)
    (h : pat.isPrefixOf (c :: cs) = false) :
    replaceAll pat rep (c :: cs) = c :: replaceAll pat rep cs := by
  simp only [replaceAll, List.length_cons, replaceAllAux, h, Bool.false_eq_true, if_false]

theorem replaceAll_head (pat rep b : List Char) (hne : pat ≠ []) :
    replaceAll pat rep (pat ++ b) = rep ++ replaceAll pat rep b := by
  match pat, hne with
  | p :: pt, _ =>
    have hpre : (p :: pt).isPrefixOf (p :: (pt ++ b)) = true := by
      rw [← List.cons_append]
      exact List.isPrefixOf_iff_prefix.mpr (List.prefix_append _ _)
    show replaceAllAux (p :: pt) rep ((p :: pt) ++ b).length ((p :: pt) ++ b) = _
    rw [List.cons_append]
    simp only [List.length_cons, List.length_append, replaceAllAux, hpre, if_true,
      Nat.add_sub_cancel, List.drop_left]
    congr 1
    exact replaceAllAux_congr _ _ _ _ _ (by simp) (le_refl _)

theorem isPrefixOf_ne_head (p c : Char) (pt l : List Char) (h : p ≠ c) :
    (p :: pt).isPrefixOf (c :: l) = false := by
  simp [List.isPrefixOf_cons₂, h]

theorem replaceAll_append_skip (p : Char) (pat rep : List Char)
    (hp : pat.head? = some p) :
    ∀ (v rest : List Char), (∀ c ∈ v, c ≠ p) →
      replaceAll pat rep (v ++ rest) = v ++ replaceAll pat rep rest := by
  intro v
  induction v with
  | nil => intro rest _; simp
  | cons c v ih =>
    intro rest hv
    match pat, hp with
    | q :: pt, hp =>
      have hq : q = p := by simpa using hp
      have hne : (q :: pt).isPrefixOf (c :: (v ++ rest)) = false := by
        apply isPrefixOf_ne_head
        rw [hq]
        exact fun hc => hv c (List.mem_cons_self c v) hc.symm
      rw [List.cons_append, replaceAll_cons_neg _ _ _ _ hne,
        ih rest (fun x hx => hv x (List.mem_cons_of_mem c hx)), List.cons_append]

theorem replaceAll_skip (p : Char) (pat rep : List Char) (hp : pat.head? = some p)
    (v : List Char) (hv : ∀ c ∈ v, c ≠ p) : replaceAll pat rep v = v := by
  have h := replaceAll_append_skip p pat rep hp v [] hv
  simpa [replaceAll_nil] using h

theorem replaceAll_no_occurrence (pat rep : List Char) :
    ∀ (s : List Char), ¬ pat <:+: s → replaceAll pat rep s = s := by
  intro s
  induction s with
  | nil => intro _; rfl
  | cons c cs ih =>
    intro h
    have hpre : pat.isPrefixOf (c :: cs) = false := by
      by_contra hb
      have hb' : pat.isPrefixOf (c :: cs) = true := by
        cases hx : pat.isPrefixOf (c :: cs) with
        | true => rfl
        | false => exact absurd hx hb
      have hpfx : pat <+: c :: cs := List.isPrefixOf_iff_prefix.mp hb'
      exact h hpfx.isInfix
    rw [replaceAll_cons_neg _ _ _ _ hpre, ih (fun hi => h (List.infix_cons hi))]

theorem replaceAll_twice (pat rep : List Char) (hne : pat ≠ [])
    (hsp : pat.isPrefixOf (' ' :: pat) = false) :
    replaceAll pat rep (pat ++ ' ' :: pat) = rep ++ ' ' :: rep := by
  have hpat : replaceAll pat rep pat = rep := by
    have h := replaceAll_head pat rep [] hne
    simpa [replaceAll_nil] using h
  rw [replaceAll_head _ _ _ hne, replaceAll_cons_neg _ _ _ _ hsp, hpat]

/-! ### The substituted values contain no opening brace -/

theorem digitChar_ne_brace (n : Nat) : digitChar n ≠ '\x7b' := by
  unfold digitChar
  split_ifs <;> decide

theorem natCharsAux_ne_brace : ∀ (fuel n : Nat), ∀ c ∈ natCharsAux fuel n, c ≠ '\x7b' := by
  intro fuel
  induction fuel with
  | zero =>
    intro n c hc
    simp only [natCharsAux, List.mem_singleton] at hc
    subst hc
    exact digitChar_ne_brace n
  | succ f ih =>
    intro n c hc
    simp only [natCharsAux] at hc
    by_cases h : n < 10
    · rw [if_pos h] at hc
      simp only [List.mem_singleton] at hc
      subst hc
      exact digitChar_ne_brace n
    · rw [if_neg h] at hc
      rcases List.mem_append.mp hc with hc | hc
      · exact ih _ _ hc
      · simp only [List.mem_singleton] at hc
        subst hc
        exact digitChar_ne_brace _

theorem natChars_ne_brace (n : Nat) : ∀ c ∈ natChars n, c ≠ '\x7b' :=
  natCharsAux_ne_brace n n

theorem padZero_ne_brace (k : Nat) (s : List Char) (hs : ∀ c ∈ s, c ≠ '\x7b') :
    ∀ c ∈ padZero k s, c ≠ '\x7b' := by
  intro c hc
  rcases List.mem_append.mp hc with hc | hc
  · rw [List.eq_of_mem_replicate hc]; decide
  · exact hs c hc

theorem intChars_ne_brace (i : Int) : ∀ c ∈ intChars i, c ≠ '\x7b' := by
  intro c hc
  unfold intChars at hc
  split_ifs at hc with h
  · rcases List.mem_cons.mp hc with hc | hc
    · subst hc; decide
    · exact natChars_ne_brace _ c hc
  · exact natChars_ne_brace _ c hc

/-! ### Decimal rendering: fuel irrelevance and digit counts -/

theorem natCharsAux_congr : ∀ (f₁ f₂ n : Nat), n ≤ f₁ → n ≤ f₂ →
    natCharsAux f₁ n = natCharsAux f₂ n := by
  intro f₁
  induction f₁ with
  | zero =>
    intro f₂ n h₁ _
    have hn : n = 0 := Nat.le_zero.mp h₁
    subst hn
    cases f₂ with
    | zero => rfl
    | succ m => simp [natCharsAux]
  | succ f ih =>
    intro f₂ n h₁ h₂
    cases f₂ with
    | zero =>
      have hn : n = 0 := Nat.le_zero.mp h₂
      subst hn
      simp [natCharsAux]
    | succ m =>
      simp only [natCharsAux]
      by_cases h : n < 10
      · simp [h]
      · rw [if_neg h, if_neg h]
        congr 1
        exact ih m (n / 10) (by omega) (by omega)

theorem natChars_lt_ten (n : Nat) (h : n < 10) : natChars n = [digitChar n] := by
  unfold natChars
  match n with
  | 0 => rfl
  | m + 1 => simp [natCharsAux, h]

theorem natChars_ge_ten (n : Nat) (h : 10 ≤ n) :
    natChars n = natChars (n / 10) ++ [digitChar (n % 10)] := by
  unfold natChars
  match n, h with
  | m + 1, h =>
    simp only [natCharsAux]
    rw [if_neg (by omega)]
    congr 1
    exact natCharsAux_congr m ((m + 1) / 10) ((m + 1) / 10) (by omega) (le_refl _)

theorem natChars_length_one (n : Nat) (h : n < 10) : (natChars n).length = 1 := by
  rw [natChars_lt_ten n h]
  rfl

theorem natChars_length_two (n : Nat) (h₁ : 10 ≤ n) (h₂ : n ≤ 99) :
    (natChars n).length = 2 := by
  rw [natChars_ge_ten n h₁]
  simp [natChars_length_one (n / 10) (by omega)]

theorem natChars_length_three (n : Nat) (h₁ : 100 ≤ n) (h₂ : n ≤ 999) :
    (natChars n).length = 3 := by
  rw [natChars_ge_ten n (by omega)]
  simp [natChars_length_two (n / 10) (by omega) (by omega)]

theorem natChars_length_four (n : Nat) (h₁ : 1000 ≤ n) (h₂ : n ≤ 9999) :
    (natChars n).length = 4 := by
  rw [natChars_ge_ten n (by omega)]
  simp [natChars_length_three (n / 10) (by omega) (by omega)]

theorem natChars_length_le_two (n : Nat) (h : n ≤ 99) : (natChars n).length ≤ 2 := by
  by_cases h10 : n < 10
  · rw [natChars_length_one n h10]; omega
  · rw [natChars_length_two n (by omega) h]

theorem natChars_length_le_four (n : Nat) (h : n ≤ 9999) : (natChars n).length ≤ 4 := by
  by_cases ha : n < 10
  · rw [natChars_length_one n ha]; omega
  by_cases hb : n ≤ 99
  · rw [natChars_length_two n (by omega) hb]; omega
  by_cases hc : n ≤ 999
  · rw [natChars_length_three n (by omega) hc]; omega
  · rw [natChars_length_four n (by omega) h]

theorem padZero_length (k : Nat) (s : List Char) (h : s.length ≤ k) :
    (padZero k s).length = k := by
  simp only [padZero, List.length_append, List.length_replicate]
  omega

theorem ne_brace_append {a b : List Char} (ha : ∀ c ∈ a, c ≠ '\x7b')
    (hb : ∀ c ∈ b, c ≠ '\x7b') : ∀ c ∈ a ++ b, c ≠ '\x7b' := by
  intro c hc
  rcases List.mem_append.mp hc with h | h
  · exact ha c h
  · exact hb c h

theorem ne_brace_cons {a : Char} {b : List Char} (ha : a ≠ '\x7b')
    (hb : ∀ c ∈ b, c ≠ '\x7b') : ∀ c ∈ a :: b, c ≠ '\x7b' := by
  intro c hc
  rcases List.mem_cons.mp hc with h | h
  · subst h; exact ha
  · exact hb c h

theorem isoDateStr_ne_brace (d : JSDate) : ∀ c ∈ isoDateStr d, c ≠ '\x7b' := by
  unfold isoDateStr
  exact ne_brace_append
    (ne_brace_append (padZero_ne_brace _ _ (natChars_ne_brace _))
      (ne_brace_cons (by decide) (padZero_ne_brace _ _ (natChars_ne_brace _))))
    (ne_brace_cons (by decide) (padZero_ne_brace _ _ (natChars_ne_brace _)))

theorem ne_brace_doubled {v : List Char} (hv : ∀ c ∈ v, c ≠ '\x7b') :
    ∀ c ∈ v ++ ' ' :: v, c ≠ '\x7b' :=
  ne_brace_append hv (ne_brace_cons (by decide) hv)

/-! ### Claim theorems -/

/-- Claim C7: a template with no occurrence of any of the seven recognized
placeholder tokens is returned verbatim by `expandSnippet`; in particular
malformed tokens such as `\x7b\x7bdat\x7d\x7d` or nested braces are never
partially matched. -/
theorem spec_c7 (t : List Char) (now : JSDate)
    (h : ∀ tok ∈ placeholderTokens, ¬ tok <:+: t) : expandSnippet t now = t := by
  unfold expandSnippet
  rw [replaceAll_no_occurrence dateTok _ t (h dateTok (by simp [placeholderTokens])),
    replaceAll_no_occurrence timeTok _ t (h timeTok (by simp [placeholderTokens])),
    replaceAll_no_occurrence datetimeTok _ t (h datetimeTok (by simp [placeholderTokens])),
    replaceAll_no_occurrence timestampTok _ t (h timestampTok (by simp [placeholderTokens])),
    replaceAll_no_occurrence yearTok _ t (h yearTok (by simp [placeholderTokens])),
    replaceAll_no_occurrence monthTok _ t (h monthTok (by simp [placeholderTokens])),
    replaceAll_no_occurrence dayTok _ t (h dayTok (by simp [placeholderTokens]))]

/-- Witness for C7 at the template `"x \x7b\x7bdat\x7d\x7d \x7bdate\x7d y"`. -/
theorem spec_c7_w :
    expandSnippet (str "x \x7b\x7bdat\x7d\x7d \x7bdate\x7d y")
      ⟨2026, 1, 11, 2026, 0, 10, 1768105800000, str "t", str "dt"⟩
      = str "x \x7b\x7bdat\x7d\x7d \x7bdate\x7d y" :=
  spec_c7 _ _ (by decide)

/-- Claim C3: `expandSnippet` replaces every occurrence (witnessed by a
doubled occurrence of each token, for every instant) of `\x7b\x7bmonth\x7d\x7d` and
`\x7b\x7bday\x7d\x7d` by the zero-padded two-digit local month/day,
`\x7b\x7byear\x7d\x7d` by the decimal local year (four digits for years
1000–9999), `\x7b\x7btimestamp\x7d\x7d` by the decimal epoch milliseconds (no
separators, no sign for non-negative instants), and `\x7b\x7bdate\x7d\x7d` by
the ISO `YYYY-MM-DD` date built from the UTC calendar fields. -/
theorem spec_c3 (now : JSDate) :
    (expandSnippet (monthTok ++ ' ' :: monthTok) now
      = padZero 2 (natChars (now.getMonth + 1)) ++ ' ' :: padZero 2 (natChars (now.getMonth + 1)))
    ∧ (expandSnippet (dayTok ++ ' ' :: dayTok) now
      = padZero 2 (natChars now.getDate) ++ ' ' :: padZero 2 (natChars now.getDate))
    ∧ (expandSnippet (yearTok ++ ' ' :: yearTok) now
      = natChars now.getFullYear ++ ' ' :: natChars now.getFullYear)
    ∧ (expandSnippet (timestampTok ++ ' ' :: timestampTok) now
      = intChars now.getTime ++ ' ' :: intChars now.getTime)
    ∧ (expandSnippet (dateTok ++ ' ' :: dateTok) now
      = isoDateStr now ++ ' ' :: isoDateStr now)
    ∧ (now.getMonth < 12 → (padZero 2 (natChars (now.getMonth + 1))).length = 2)
    ∧ (now.getMonth + 1 = 3 → padZero 2 (natChars (now.getMonth + 1)) = str "03")
    ∧ (now.getDate ≤ 31 → (padZero 2 (natChars now.getDate)).length = 2)
    ∧ (now.getDate = 7 → padZero 2 (natChars now.getDate) = str "07")
    ∧ (1000 ≤ now.getFullYear → now.getFullYear ≤ 9999 →
        (natChars now.getFullYear).length = 4)
    ∧ (0 ≤ now.getTime → intChars now.getTime = natChars now.getTime.natAbs)
    ∧ (now.utcYear ≤ 9999 → now.utcMonth ≤ 99 → now.utcDay ≤ 99 →
        (isoDateStr now).length = 10) := by
  refine ⟨?_, ?_, ?_, ?_, ?_, ?_, ?_, ?_, ?_, ?_, ?_, ?_⟩
  · unfold expandSnippet
    rw [replaceAll_no_occurrence dateTok _ _ (by decide),
      replaceAll_no_occurrence timeTok _ _ (by decide),
      replaceAll_no_occurrence datetimeTok _ _ (by decide),
      replaceAll_no_occurrence timestampTok _ _ (by decide),
      replaceAll_no_occurrence yearTok _ _ (by decide),
      replaceAll_twice monthTok _ (by decide) (by decide),
      replaceAll_skip '\x7b' dayTok _ (by decide) _
        (ne_brace_doubled (padZero_ne_brace _ _ (natChars_ne_brace _)))]
  · unfold expandSnippet
    rw [replaceAll_no_occurrence dateTok _ _ (by decide),
      replaceAll_no_occurrence timeTok _ _ (by decide),
      replaceAll_no_occurrence datetimeTok _ _ (by decide),
      replaceAll_no_occurrence timestampTok _ _ (by decide),
      replaceAll_no_occurrence yearTok _ _ (by decide),
      replaceAll_no_occurrence monthTok _ _ (by decide),
      replaceAll_twice dayTok _ (by decide) (by decide)]
  · unfold expandSnippet
    rw [replaceAll_no_occurrence dateTok _ _ (by decide),
      replaceAll_no_occurrence timeTok _ _ (by decide),
      replaceAll_no_occurrence datetimeTok _ _ (by decide),
      replaceAll_no_occurrence timestampTok _ _ (by decide),
      replaceAll_twice yearTok _ (by decide) (by decide),
      replaceAll_skip '\x7b' monthTok _ (by decide) _
        (ne_brace_doubled (natChars_ne_brace _)),
      replaceAll_skip '\x7b' dayTok _ (by decide) _
        (ne_brace_doubled (natChars_ne_brace _))]
  · unfold expandSnippet
    rw [replaceAll_no_occurrence dateTok _ _ (by decide),
      replaceAll_no_occurrence timeTok _ _ (by decide),
      replaceAll_no_occurrence datetimeTok _ _ (by decide),
      replaceAll_twice timestampTok _ (by decide) (by decide),
      replaceAll_skip '\x7b' yearTok _ (by decide) _
        (ne_brace_doubled (intChars_ne_brace _)),
      replaceAll_skip '\x7b' monthTok _ (by decide) _
        (ne_brace_doubled (intChars_ne_brace _)),
      replaceAll_skip '\x7b' dayTok _ (by decide) _
        (ne_brace_doubled (intChars_ne_brace _))]
  · unfold expandSnippet
    rw [replaceAll_twice dateTok _ (by decide) (by decide),
      replaceAll_skip '\x7b' timeTok _ (by decide) _
        (ne_brace_doubled (isoDateStr_ne_brace _)),
      replaceAll_skip '\x7b' datetimeTok _ (by decide) _
        (ne_brace_doubled (isoDateStr_ne_brace _)),
      replaceAll_skip '\x7b' timestampTok _ (by decide) _
        (ne_brace_doubled (isoDateStr_ne_brace _)),
      replaceAll_skip '\x7b' yearTok _ (by decide) _
        (ne_brace_doubled (isoDateStr_ne_brace _)),
      replaceAll_skip '\x7b' monthTok _ (by decide) _
        (ne_brace_doubled (isoDateStr_ne_brace _)),
      replaceAll_skip '\x7b' dayTok _ (by decide) _
        (ne_brace_doubled (isoDateStr_ne_brace _))]
  · intro h
    exact padZero_length 2 _ (natChars_length_le_two _ (by omega))
  · intro h
    rw [h]
    decide
  · intro h
    exact padZero_length 2 _ (natChars_length_le_two _ (by omega))
  · intro h
    rw [h]
    decide
  · intro h₁ h₂
    exact natChars_length_four _ h₁ h₂
  · intro h
    unfold intChars
    rw [if_neg (by omega)]
  · intro h₁ h₂ h₃
    unfold isoDateStr
    simp only [List.length_append, List.length_cons,
      padZero_length 4 _ (natChars_length_le_four _ h₁),
      padZero_length 2 _ (natChars_length_le_two _ h₂),
      padZero_length 2 _ (natChars_length_le_two _ h₃)]

/-- Witness for C3 at the concrete instant 2026-03-07 (local), equal to
2026-03-07T12:00:00Z, month 3 and day 7 exercising the zero padding. -/
theorem spec_c3_w :
    (expandSnippet (monthTok ++ ' ' :: monthTok)
        ⟨2026, 3, 7, 2026, 2, 7, 1772884800000, str "t", str "dt"⟩
      = str "03 03")
    ∧ (expandSnippet (dayTok ++ ' ' :: dayTok)
        ⟨2026, 3, 7, 2026, 2, 7, 1772884800000, str "t", str "dt"⟩
      = str "07 07")
    ∧ padZero 2 (natChars 3) = str "03"
    ∧ padZero 2 (natChars 7) = str "07"
    ∧ (natChars 2026).length = 4 := by
  have h := spec_c3 ⟨2026, 3, 7, 2026, 2, 7, 1772884800000, str "t", str "dt"⟩
  refine ⟨?_, ?_, h.2.2.2.2.2.2.1 (by decide), h.2.2.2.2.2.2.2.2.1 (by decide),
    h.2.2.2.2.2.2.2.2.2.1 (by decide) (by decide)⟩
  · rw [h.1]
    decide
  · rw [h.2.1]
    decide

/-- The instant 2026-01-10T23:30:00 at UTC offset -05:00, i.e. epoch
millisecond 1768105800000 = 2026-01-11T04:30:00Z: the UTC calendar date is
2026-01-11 while the local calendar date is 2026-01-10. -/
def c8Date : JSDate :=
  ⟨2026, 1, 11, 2026, 0, 10, 1768105800000, str "11:30 PM", str "1/10/2026, 11:30:00 PM"⟩

/-- Claim C8: `\x7b\x7bdate\x7d\x7d` is computed from UTC calendar fields while
`\x7b\x7byear\x7d\x7d`, `\x7b\x7bmonth\x7d\x7d`, `\x7b\x7bday\x7d\x7d` come from local
calendar fields, so at an instant with a non-zero UTC offset the two
templates can expand to different calendar dates. -/
theorem spec_c8 :
    expandSnippet dateTok c8Date = str "2026-01-11"
    ∧ expandSnippet (str "\x7b\x7byear\x7d\x7d-\x7b\x7bmonth\x7d\x7d-\x7b\x7bday\x7d\x7d") c8Date
      = str "2026-01-10"
    ∧ expandSnippet dateTok c8Date
      ≠ expandSnippet (str "\x7b\x7byear\x7d\x7d-\x7b\x7bmonth\x7d\x7d-\x7b\x7bday\x7d\x7d") c8Date := by
  decide

theorem findMatch_eq_none (key pre : List Char) (snips : List RawSnippet)
    (h : ∀ s ∈ snips, (snippetCandidate key s).isSuffixOf pre = false) :
    findMatch key snips pre = none :=
  List.find?_eq_none.mpr fun x hx => by simp [h x hx]

/-- Claim C1: if the text before the cursor ends with `key ++ trigger` for
some snippet of the list, the matcher finds a snippet whose candidate is a
suffix of that text, with candidate length `len key + len trigger`; the
suffix test is the exact character-literal `List.isSuffixOf`.  If no
candidate is a suffix, the matcher reports no match and the space key-press
is passed through with no action. -/
theorem spec_c1 (key pre : List Char) (snips : List RawSnippet)
    (hwf : ∀ s ∈ snips, s.trigger.isSome = true) :
    ((∃ s ∈ snips, ∃ t, s.trigger = some t ∧ (key ++ t).isSuffixOf pre = true) →
      ∃ s ∈ snips, ∃ t, s.trigger = some t ∧ findMatch key snips pre = some s ∧
        (key ++ t).isSuffixOf pre = true ∧ (key ++ t).length = key.length + t.length)
    ∧ ((∀ s ∈ snips, (snippetCandidate key s).isSuffixOf pre = false) →
      findMatch key snips pre = none)
    ∧ (∀ (sugg : Bool) (st : EditorState) (now : JSDate),
        textBeforeCursor st = pre →
        (∀ s ∈ snips, (snippetCandidate key s).isSuffixOf pre = false) →
        keydown (str " ") ⟨snips, key, sugg⟩ st now = Outcome.pass) := by
  refine ⟨?_, ?_, ?_⟩
  · rintro ⟨s, hs, t, ht, hsuf⟩
    have hp : ((snippetCandidate key s).isSuffixOf pre) = true := by
      unfold snippetCandidate jsString
      rw [ht]
      exact hsuf
    have hsome : (snips.find? fun x => (snippetCandidate key x).isSuffixOf pre).isSome :=
      List.find?_isSome.mpr ⟨s, hs, hp⟩
    obtain ⟨b, hb⟩ := Option.isSome_iff_exists.mp hsome
    obtain ⟨tb, htb⟩ := Option.isSome_iff_exists.mp (hwf b (List.mem_of_find?_eq_some hb))
    have hpb := List.find?_some hb
    have hcb : snippetCandidate key b = key ++ tb := by
      unfold snippetCandidate jsString
      rw [htb]
      rfl
    refine ⟨b, List.mem_of_find?_eq_some hb, tb, htb, hb, ?_, by simp⟩
    rw [← hcb]
    simpa using hpb
  · exact findMatch_eq_none key pre snips
  · intro sugg st now hpre hnone
    have h2 : findMatch key snips (textBeforeCursor st) = none := by
      rw [hpre]
      exact findMatch_eq_none key pre snips hnone
    unfold keydown
    rw [if_pos rfl, show (⟨snips, key, sugg⟩ : Settings).triggerKey = key from rfl,
      show (⟨snips, key, sugg⟩ : Settings).snippets = snips from rfl, h2]

/-- Witness for C1: multi-character trigger key `";;"`, snippet trigger
`"a"`, preceding text `"x;;a"`. -/
theorem spec_c1_w :
    ∃ s ∈ [(⟨some (str "a"), some (str "T"), some (str "d")⟩ : RawSnippet)], ∃ t,
      s.trigger = some t
      ∧ findMatch (str ";;") [⟨some (str "a"), some (str "T"), some (str "d")⟩] (str "x;;a")
          = some s
      ∧ (str ";;" ++ t).isSuffixOf (str "x;;a") = true
      ∧ (str ";;" ++ t).length = (str ";;").length + t.length :=
  (spec_c1 (str ";;") (str "x;;a") [⟨some (str "a"), some (str "T"), some (str "d")⟩]
      (by decide)).1
    ⟨⟨some (str "a"), some (str "T"), some (str "d")⟩, by decide, str "a", rfl, by decide⟩

/-- Claim C2: the matcher returns the first snippet, in supplied order,
whose candidate is a suffix of the preceding text; with two snippets
carrying the same trigger, the earlier one is returned. -/
theorem spec_c2 (key pre : List Char) :
    (∀ (l₁ l₂ : List RawSnippet) (s : RawSnippet),
      (snippetCandidate key s).isSuffixOf pre = true →
      (∀ x ∈ l₁, (snippetCandidate key x).isSuffixOf pre = false) →
      findMatch key (l₁ ++ s :: l₂) pre = some s)
    ∧ (∀ (t tpl₁ tpl₂ d₁ d₂ : List Char) (l₁ mid l₂ : List RawSnippet),
      (key ++ t).isSuffixOf pre = true →
      (∀ x ∈ l₁, (snippetCandidate key x).isSuffixOf pre = false) →
      findMatch key
          (l₁ ++ ⟨some t, some tpl₁, some d₁⟩ ::
            (mid ++ ⟨some t, some tpl₂, some d₂⟩ :: l₂)) pre
        = some ⟨some t, some tpl₁, some d₁⟩) := by
  have first : ∀ (l₁ l₂ : List RawSnippet) (s : RawSnippet),
      (snippetCandidate key s).isSuffixOf pre = true →
      (∀ x ∈ l₁, (snippetCandidate key x).isSuffixOf pre = false) →
      findMatch key (l₁ ++ s :: l₂) pre = some s := by
    intro l₁ l₂ s hs hl
    exact List.find?_eq_some.mpr ⟨hs, l₁, l₂, rfl, fun a ha => by simp [hl a ha]⟩
  refine ⟨first, ?_⟩
  intro t tpl₁ tpl₂ d₁ d₂ l₁ mid l₂ ht hl
  apply first
  · unfold snippetCandidate jsString
    simpa using ht
  · exact hl

/-- Witness for C2: two snippets with the identical trigger `"a"`; the
first-listed one is returned. -/
theorem spec_c2_w :
    findMatch (str "/")
        ([] ++ ⟨some (str "a"), some (str "T1"), some (str "d1")⟩ ::
          ([] ++ ⟨some (str "a"), some (str "T2"), some (str "d2")⟩ :: []))
        (str "x /a")
      = some ⟨some (str "a"), some (str "T1"), some (str "d1")⟩ :=
  (spec_c2 (str "/") (str "x /a")).2 (str "a") (str "T1") (str "T2") (str "d1") (str "d2")
    [] [] [] (by decide) (by decide)

/-- Claim C9: a snippet whose trigger is the empty string has candidate
equal to the trigger key alone, so any preceding text ending with the bare
trigger key matches it and a space key-press fires an expansion; the
settings tab stores an empty edited trigger verbatim. -/
theorem spec_c9 (key pre tpl : List Char) (d : Option (List Char))
    (l₁ l₂ : List RawSnippet) :
    (snippetCandidate key ⟨some [], some tpl, d⟩ = key)
    ∧ (key.isSuffixOf pre = true →
        (snippetCandidate key ⟨some [], some tpl, d⟩).isSuffixOf pre = true)
    ∧ (key.isSuffixOf pre = true →
        ∃ s, findMatch key (l₁ ++ ⟨some [], some tpl, d⟩ :: l₂) pre = some s)
    ∧ (∀ (settings : Settings) (st : EditorState) (now : JSDate),
        settings.snippets = l₁ ++ ⟨some [], some tpl, d⟩ :: l₂ →
        settings.triggerKey = key →
        key.isSuffixOf (textBeforeCursor st) = true →
        (∀ s ∈ settings.snippets, s.template.isSome = true) →
        ∃ nd nt, keydown (str " ") settings st now = Outcome.expanded nd nt)
    ∧ (∀ s₀ : RawSnippet, (snippetTriggerOnChange s₀ []).trigger = some []) := by
  have hcand : snippetCandidate key ⟨some [], some tpl, d⟩ = key := by
    unfold snippetCandidate jsString
    simp
  have hfind : ∀ pre', key.isSuffixOf pre' = true →
      ∃ s, findMatch key (l₁ ++ ⟨some [], some tpl, d⟩ :: l₂) pre' = some s := by
    intro pre' h
    have hmem : (⟨some [], some tpl, d⟩ : RawSnippet) ∈ l₁ ++ ⟨some [], some tpl, d⟩ :: l₂ :=
      List.mem_append.mpr (Or.inr (List.mem_cons_self _ _))
    have hsome : ((l₁ ++ ⟨some [], some tpl, d⟩ :: l₂).find?
        fun x => (snippetCandidate key x).isSuffixOf pre').isSome :=
      List.find?_isSome.mpr ⟨_, hmem, by rw [hcand]; exact h⟩
    exact Option.isSome_iff_exists.mp hsome
  refine ⟨hcand, fun h => by rw [hcand]; exact h, hfind pre, ?_, fun s₀ => rfl⟩
  intro settings st now hsn hkey hsuf hwf
  have h2 : ∃ s, findMatch settings.triggerKey settings.snippets (textBeforeCursor st)
      = some s := by
    rw [hsn, hkey]
    exact hfind (textBeforeCursor st) hsuf
  obtain ⟨s, hs⟩ := h2
  obtain ⟨tpl', htpl⟩ := Option.isSome_iff_exists.mp (hwf s (List.mem_of_find?_eq_some hs))
  refine ⟨st.doc.take (st.head - (snippetCandidate settings.triggerKey s).length)
      ++ expandSnippet tpl' now ++ st.doc.drop st.head,
    str "✨ Expanded: " ++ jsString s.trigger, ?_⟩
  unfold keydown
  rw [if_pos rfl, hs]
  dsimp only
  rw [htpl]

/-- Witness for C9: list with one empty-trigger snippet, trigger key `"/"`,
preceding text `"ab /"` ending with the bare key. -/
theorem spec_c9_w :
    ∃ nd nt, keydown (str " ")
        ⟨[⟨some [], some (str "T"), some (str "d")⟩], str "/", true⟩
        ⟨str "ab /", 4⟩ c8Date = Outcome.expanded nd nt :=
  (spec_c9 (str "/") (str "ab /") (str "T") (some (str "d")) [] []).2.2.2.1
    ⟨[⟨some [], some (str "T"), some (str "d")⟩], str "/", true⟩ ⟨str "ab /", 4⟩ c8Date
    rfl rfl (by decide) (by decide)

/-- Claim C10: the handler inspects only the space key: any other key is
passed through unchanged — no snippet consulted, no edit, no notice. -/
theorem spec_c10 (key : List Char) (settings : Settings) (st : EditorState)
    (now : JSDate) (h : key ≠ str " ") : keydown key settings st now = Outcome.pass := by
  unfold keydown
  rw [if_neg h]

/-- Witness for C10 at the key `"a"`. -/
theorem spec_c10_w :
    keydown (str "a")
      ⟨[⟨some (str "todo"), some (str "T"), some (str "d")⟩], str "/", true⟩
      ⟨str "x /todo", 7⟩ c8Date = Outcome.pass :=
  spec_c10 _ _ _ _ (by decide)

theorem find?_cons_pos' (p : RawSnippet → Bool) (a : RawSnippet) (l : List RawSnippet)
    (h : p a = true) : List.find? p (a :: l) = some a :=
  List.find?_cons_of_pos l h

theorem find?_cons_neg' (p : RawSnippet → Bool) (a : RawSnippet) (l : List RawSnippet)
    (h : p a = false) : List.find? p (a :: l) = List.find? p l :=
  List.find?_cons_of_neg l (by simp [h])

/-- Counterexample to C4 as stated: a snippet entry missing its `template`
field is not skipped — its candidate `"/x"` matches the preceding text
`"hello /x"`, and the space key-press then throws (`undefined.replace`)
instead of expanding. -/
theorem spec_c4_cex :
    keydown (str " ")
        ⟨[⟨some (str "meeting"), some (str "M"), some (str "d")⟩,
          ⟨some (str "x"), none, some (str "bad")⟩,
          ⟨some (str "todo"), some (str "T"), some (str "d")⟩], str "/", true⟩
        ⟨str "hello /x", 8⟩ c8Date = Outcome.thrown
    ∧ findMatch (str "/")
        [⟨some (str "meeting"), some (str "M"), some (str "d")⟩,
          ⟨some (str "x"), none, some (str "bad")⟩,
          ⟨some (str "todo"), some (str "T"), some (str "d")⟩]
        (str "hello /x")
      = some ⟨some (str "x"), none, some (str "bad")⟩ := by
  decide

/-- Claim C4 (amended): malformed entries are not skipped.  A matched
entry whose `template` field is missing makes the key-press throw; a
malformed entry whose candidate does not match is merely passed over, so
the remaining valid entries still match; an entry missing its `trigger`
field gets the candidate `key ++ "undefined"` by JavaScript string
coercion. -/
theorem spec_c4 :
    (∀ (settings : Settings) (st : EditorState) (now : JSDate) (s : RawSnippet),
      findMatch settings.triggerKey settings.snippets (textBeforeCursor st) = some s →
      s.template = none →
      keydown (str " ") settings st now = Outcome.thrown)
    ∧ (∀ (key pre : List Char) (l₁ : List RawSnippet) (bad : RawSnippet)
        (l₂ : List RawSnippet),
      (snippetCandidate key bad).isSuffixOf pre = false →
      findMatch key (l₁ ++ bad :: l₂) pre = findMatch key (l₁ ++ l₂) pre)
    ∧ (∀ (key : List Char) (tpl d : Option (List Char)),
      snippetCandidate key ⟨none, tpl, d⟩ = key ++ str "undefined") := by
  refine ⟨?_, ?_, ?_⟩
  · intro settings st now s hfind htpl
    unfold keydown
    rw [if_pos rfl, hfind]
    dsimp only
    rw [htpl]
  · intro key pre l₁ bad l₂ hbad
    induction l₁ with
    | nil =>
      show List.find? _ (bad :: l₂) = List.find? _ l₂
      exact find?_cons_neg' _ bad l₂ hbad
    | cons a l ih =>
      show List.find? _ (a :: (l ++ bad :: l₂)) = List.find? _ (a :: (l ++ l₂))
      cases hpa : (snippetCandidate key a).isSuffixOf pre with
      | true =>
        rw [find?_cons_pos' _ a _ hpa, find?_cons_pos' _ a _ hpa]
      | false =>
        rw [find?_cons_neg' _ a _ hpa, find?_cons_neg' _ a _ hpa]
        exact ih
  · intro key tpl d
    rfl

/-- Witness for C4 (amended): a matched template-less entry throws; an
unmatched malformed entry leaves matching over the rest unchanged. -/
theorem spec_c4_w :
    keydown (str " ") ⟨[⟨some (str "x"), none, some (str "b")⟩], str "/", true⟩
        ⟨str "q /x", 4⟩ c8Date = Outcome.thrown
    ∧ findMatch (str "/")
        ([⟨some (str "a"), some (str "T"), some (str "d")⟩] ++
          ⟨some (str "x"), none, some (str "b")⟩ ::
            [⟨some (str "todo"), some (str "T2"), some (str "d2")⟩])
        (str "q /todo")
      = findMatch (str "/")
        ([⟨some (str "a"), some (str "T"), some (str "d")⟩] ++
          [⟨some (str "todo"), some (str "T2"), some (str "d2")⟩])
        (str "q /todo") :=
  ⟨spec_c4.1 ⟨[⟨some (str "x"), none, some (str "b")⟩], str "/", true⟩ ⟨str "q /x", 4⟩
      c8Date ⟨some (str "x"), none, some (str "b")⟩ (by decide) rfl,
    spec_c4.2.1 _ _ _ _ _ (by decide)⟩

/-- Counterexample to C5 as stated: with an empty trigger-key string the
matcher does not substitute the default `"/"`; it matches the bare trigger
text.  On the document `"xa"` with snippet trigger `"a"`, the empty key
expands (candidate `"a"`), while the default key `"/"` passes the key-press
through — the two behaviours differ. -/
theorem spec_c5_cex :
    keydown (str " ") ⟨[⟨some (str "a"), some (str "T"), some (str "d")⟩], [], true⟩
        ⟨str "xa", 2⟩ c8Date
      = Outcome.expanded (str "xT") (str "✨ Expanded: a")
    ∧ keydown (str " ") ⟨[⟨some (str "a"), some (str "T"), some (str "d")⟩], str "/", true⟩
        ⟨str "xa", 2⟩ c8Date = Outcome.pass := by
  decide

/-- Claim C5 (amended): the matcher uses the supplied trigger-key string
verbatim — an empty key makes every candidate the bare trigger text.  The
fallback to the default `"/"` exists only in the settings tab: the
trigger-character field's `onChange` stores `"/"` when the entered value
is empty and stores any non-empty value verbatim. -/
theorem spec_c5 :
    (∀ (snips : List RawSnippet) (pre : List Char),
      findMatch [] snips pre = snips.find? fun s => (jsString s.trigger).isSuffixOf pre)
    ∧ (∀ s : RawSnippet, snippetCandidate [] s = jsString s.trigger)
    ∧ triggerKeyOnChange [] = str "/"
    ∧ (∀ v : List Char, v ≠ [] → triggerKeyOnChange v = v) := by
  refine ⟨?_, ?_, rfl, ?_⟩
  · intro snips pre
    simp [findMatch, snippetCandidate]
  · intro s
    simp [snippetCandidate]
  · intro v hv
    unfold triggerKeyOnChange
    rw [if_neg hv]

/-- Witness for C5 (amended) at a one-snippet list and the key `";"`. -/
theorem spec_c5_w :
    findMatch [] [⟨some (str "a"), some (str "T"), some (str "d")⟩] (str "xa")
      = [(⟨some (str "a"), some (str "T"), some (str "d")⟩ : RawSnippet)].find?
          (fun s => (jsString s.trigger).isSuffixOf (str "xa"))
    ∧ triggerKeyOnChange (str ";") = str ";" :=
  ⟨spec_c5.1 _ _, spec_c5.2.2.2 (str ";") (by decide)⟩

theorem textBeforeCursor_suffix (st : EditorState) :
    textBeforeCursor st <:+ st.doc.take st.head := by
  unfold textBeforeCursor
  have h : ((st.doc.take st.head).reverse.takeWhile fun c => c ≠ '\n')
      <+: (st.doc.take st.head).reverse := List.takeWhile_prefix _
  have h2 : (((st.doc.take st.head).reverse.takeWhile fun c => c ≠ '\n')).reverse
      <:+ ((st.doc.take st.head).reverse).reverse := List.reverse_suffix.mpr h
  rwa [ List.reverse_reverse] at h2

/-- Claim C6: when a space key-press is handled, the matched candidate
(trigger key followed by trigger name) is a literal suffix of the text
before the cursor, and the one dispatched edit replaces exactly the span
`[head - candidate.length, head)` of the document — the document is the
unchanged prefix, then the candidate, then the unchanged tail, and the new
document is the same prefix, the expanded template, and the same tail.
At most one expansion occurs per key-press by construction: `keydown`
returns at the first match with a single dispatched change. -/
theorem spec_c6 (settings : Settings) (st : EditorState) (now : JSDate)
    (nd nt : List Char) (hb : st.head ≤ st.doc.length)
    (h : keydown (str " ") settings st now = Outcome.expanded nd nt) :
    ∃ s tpl,
      findMatch settings.triggerKey settings.snippets (textBeforeCursor st) = some s
      ∧ s.template = some tpl
      ∧ (snippetCandidate settings.triggerKey s).isSuffixOf (textBeforeCursor st) = true
      ∧ (snippetCandidate settings.triggerKey s).length ≤ st.head
      ∧ st.doc = st.doc.take (st.head - (snippetCandidate settings.triggerKey s).length)
          ++ snippetCandidate settings.triggerKey s ++ st.doc.drop st.head
      ∧ nd = st.doc.take (st.head - (snippetCandidate settings.triggerKey s).length)
          ++ expandSnippet tpl now ++ st.doc.drop st.head := by
  unfold keydown at h
  rw [if_pos rfl] at h
  cases hf : findMatch settings.triggerKey settings.snippets (textBeforeCursor st) with
  | none =>
    rw [hf] at h
    exact absurd h (by simp)
  | some s =>
    rw [hf] at h
    dsimp only at h
    cases ht : s.template with
    | none =>
      rw [ht] at h
      exact absurd h (by simp)
    | some tpl =>
      rw [ht] at h
      dsimp only at h
      injection h with h1 h2
      have hf' : List.find?
          (fun x => (snippetCandidate settings.triggerKey x).isSuffixOf (textBeforeCursor st))
          settings.snippets = some s := hf
      have hsuf0 := List.find?_some hf'
      have hsuf : (snippetCandidate settings.triggerKey s).isSuffixOf (textBeforeCursor st)
          = true := hsuf0
      have hsx : snippetCandidate settings.triggerKey s <:+ textBeforeCursor st :=
        List.isSuffixOf_iff_suffix.mp hsuf
      have hsx2 : snippetCandidate settings.triggerKey s <:+ st.doc.take st.head :=
        hsx.trans (textBeforeCursor_suffix st)
      have hlen : (snippetCandidate settings.triggerKey s).length ≤ st.head := by
        have h3 := hsx2.length_le
        rw [List.length_take] at h3
        omega
      obtain ⟨u, hu⟩ := hsx2
      have hulen : u.length = st.head - (snippetCandidate settings.triggerKey s).length := by
        have h3 := congrArg List.length hu
        simp only [List.length_append, List.length_take] at h3
        omega
      have htake : st.doc.take (st.head - (snippetCandidate settings.triggerKey s).length)
          = u := by
        have h3 : (st.doc.take st.head).take u.length = u := by
          rw [← hu]
          exact List.take_left u _
        rw [List.take_take] at h3
        rw [← h3]
        congr 1
        omega
      refine ⟨s, tpl, rfl, ht, hsuf, hlen, ?_, h1.symm⟩
      rw [htake, hu]
      exact (List.take_append_drop st.head st.doc).symm

/-- Witness for C6: key `"/"`, snippet `"todo"` with template `"X"`, on
the document `"hello /todo"` with the cursor at its end. -/
theorem spec_c6_w :
    ∃ s tpl,
      findMatch (str "/") [⟨some (str "todo"), some (str "X"), some (str "d")⟩]
          (textBeforeCursor ⟨str "hello /todo", 11⟩) = some s
      ∧ s.template = some tpl
      ∧ (snippetCandidate (str "/") s).isSuffixOf
          (textBeforeCursor ⟨str "hello /todo", 11⟩) = true
      ∧ (snippetCandidate (str "/") s).length ≤ 11
      ∧ str "hello /todo"
          = (str "hello /todo").take (11 - (snippetCandidate (str "/") s).length)
            ++ snippetCandidate (str "/") s ++ (str "hello /todo").drop 11
      ∧ str "hello X"
          = (str "hello /todo").take (11 - (snippetCandidate (str "/") s).length)
            ++ expandSnippet tpl c8Date ++ (str "hello /todo").drop 11 :=
  spec_c6 ⟨[⟨some (str "todo"), some (str "X"), some (str "d")⟩], str "/", true⟩
    ⟨str "hello /todo", 11⟩ c8Date (str "hello X") (str "✨ Expanded: todo")
    (by decide) (by decide)

end SmartSnippets
